import Mathlib

/-!
Shallow embedding of the snail-chain construction core of
truechain-engineering-code (core/snailchain/chain_makers.go).

Modelling conventions:
* Go `*big.Int` values are modelled as unbounded `Int`; a possibly-nil
  `*big.Int` field is `Option Int`.  The `Uint64`/`Int64` conversions are
  modelled exactly for the value ranges a chain can reach (heights, times
  and fast numbers all stay far below 2^63); `Uint64` keeps its
  low-64-bit wraparound explicitly.
* Hashes and addresses are opaque `Nat` values; the hash function is a
  structural stand-in for the RLP/keccak header hash (no claim constrains
  the hash function itself, only how hash values propagate into child
  headers).
* Go panics (nil-pointer dereference, out-of-range indexing, explicit
  `panic`) are modelled as `none` in an `Option`-valued result: the caller
  receives no value at all, as opposed to `some (Except.error _)`, an
  explicitly returned Go error.
* Accessors such as `Number()`, `Time()`, `Coinbase()`, `UncleHash()`,
  `BlockDifficulty()`, `Fruits()`, `FastNumber()` on `types.SnailBlock`
  return (copies of) the corresponding header/body fields, as in
  go-ethereum-style block types.
-/

/-- Snail header, after types.SnailHeader.  Field defaults are the Go
zero values of a fresh `&types.SnailHeader{...}` literal (nil big-int
pointers become `none`, nil slices become `[]`). -/
structure SnailHeader where
  parentHash : Nat := 0
  coinbase : Nat := 0
  publickey : List Nat := []
  number : Int := 0
  time : Option Int := none
  difficulty : Int := 0
  uncleHash : Nat := 0
  extra : List Nat := []
  fruit : Bool := false
  fastNumber : Option Int := none
  pointerHash : Nat := 0
  pointerNumber : Int := 0
deriving Inhabited

/-- Snail block, after types.SnailBlock: a header plus the aggregated
fruits (themselves snail blocks), the pbft signature set and the uncle
headers.  `types.NewSnailBlock(header, fruits, signs, uncles)` is the
constructor `SnailBlock.mk` (the Go constructor deep-copies its inputs;
values are equal either way). -/
inductive SnailBlock where
  | mk (header : SnailHeader) (fruits : List SnailBlock)
      (signs : List Nat) (uncles : List SnailHeader)

/-- Header of a snail block (accessor `Header()` / `Time()` / ...). -/
def SnailBlock.header : SnailBlock → SnailHeader
  | .mk h _ _ _ => h

/-- Fruit list of a snail block (accessor `Fruits()`). -/
def SnailBlock.fruits : SnailBlock → List SnailBlock
  | .mk _ f _ _ => f

/-- Signature set of a snail block (accessor `Signs()`). -/
def SnailBlock.signs : SnailBlock → List Nat
  | .mk _ _ s _ => s

/-- Uncle headers of a snail block (accessor `Uncles()`). -/
def SnailBlock.uncles : SnailBlock → List SnailHeader
  | .mk _ _ _ u => u

instance : Inhabited SnailBlock := ⟨SnailBlock.mk {} [] [] []⟩

/-- Encoding of an integer into a natural, used by the hash stand-in. -/
def encodeInt (x : Int) : Nat :=
  if x < 0 then 2 * x.natAbs + 1 else 2 * x.natAbs

/-- Encoding of an optional integer into a natural, used by the hash
stand-in. -/
def encodeOptInt : Option Int → Nat
  | none => 0
  | some x => encodeInt x + 1

/-- Stand-in for the RLP/keccak hash of a snail header.  The claims
constrain only how hash values flow from a parent into a child header
(`parentHash`, `pointerHash`), never the hash function itself. -/
def SnailHeader.hashOf (h : SnailHeader) : Nat :=
  List.foldl (fun a x => a * 1000003 + x) 7
    [h.parentHash, h.coinbase, h.publickey.foldl (fun a x => a * 256 + x) 0,
     encodeInt h.number, encodeOptInt h.time, encodeInt h.difficulty,
     h.uncleHash, h.extra.foldl (fun a x => a * 256 + x) 0,
     cond h.fruit 1 0, encodeOptInt h.fastNumber, h.pointerHash,
     encodeInt h.pointerNumber]

/-- Hash of a snail block (`Hash()` is the sealed header hash). -/
def SnailBlock.hashOf (b : SnailBlock) : Nat :=
  b.header.hashOf

/-- Go `big.Int.Uint64()`: the low 64 bits of the value. -/
def bigUint64 (x : Int) : Nat :=
  (x % (2 ^ 64 : Int)).toNat

/-- Consensus engine interface, after consensus.Engine as used by the
call sites in chain_makers.go and spec section 6: `CalcSnailDifficulty`
is a deterministic function of the ancestor-header window and the new
block time (spec section 4.2 requires it to be a pure function of those
inputs, so the chain-reader argument is omitted), and `FinalizeSnail`
returns a (possibly nil) sealed block together with a (possibly nil)
error, exactly the Go result pair. -/
structure Engine where
  calcSnailDifficulty : List SnailHeader → Nat → Int
  finalizeSnail : SnailHeader → List SnailHeader → List SnailBlock →
      List Nat → Option SnailBlock × Option String

/-- The single-ancestor window header makeHeader passes to
`CalcSnailDifficulty`: the parent's number, difficulty and uncle hash,
with time `time - 10` (the draft time minus the fixed block interval). -/
def ancWindow (parent : SnailBlock) (time : Int) : SnailHeader :=
  { number := parent.header.number
    time := some (time - 10)
    difficulty := parent.header.difficulty
    uncleHash := parent.header.uncleHash }

/-- makeHeader (chain_makers.go lines 153-174): the draft header for the
next block.  Time is the parent time plus the fixed 10-unit interval,
or exactly 10 when the parent time is nil; difficulty is computed by the
engine over the single-ancestor window containing only the immediate
parent. -/
def makeHeader (parent : SnailBlock) (engine : Engine) : SnailHeader :=
  let time : Int :=
    match parent.header.time with
    | none => 10
    | some t => t + 10
  { parentHash := SnailBlock.hashOf parent
    coinbase := parent.header.coinbase
    difficulty := engine.calcSnailDifficulty [ancWindow parent time] (bigUint64 time)
    number := parent.header.number + 1
    time := some time }

/-- Block-generation context, after the BlockGen struct (chain_makers.go
lines 34-49).  The chain reader, the shared output slice and the chain
config are omitted: none of the modelled operations reads them (the
difficulty engine is modelled as a function of the window and the time,
per spec section 4.2). -/
structure BlockGen where
  i : Nat
  parent : SnailBlock
  header : SnailHeader
  uncles : List SnailHeader := []
  fruits : List SnailBlock := []
  signs : List Nat := []
  engine : Engine

/-- OffsetTime (chain_makers.go lines 97-104): add `seconds` to the
draft header time; panic (modelled as `none`) when the new time does not
strictly exceed the parent time; otherwise recompute the difficulty with
the engine over the single-ancestor window containing only the parent
header, at the new time.  A nil header or parent time would be a
nil-pointer dereference in `Add`/`Cmp`, also `none`. -/
def BlockGen.OffsetTime (b : BlockGen) (seconds : Int) : Option BlockGen :=
  match b.header.time, b.parent.header.time with
  | some t, some pt =>
    let newTime := t + seconds
    if newTime ≤ pt then
      none
    else
      some { b with header :=
        { b.header with
            time := some newTime
            difficulty := b.engine.calcSnailDifficulty [b.parent.header]
              (bigUint64 newTime) } }
  | _, _ => none

/-- One iteration of the GenerateChain loop (the genblock closure,
chain_makers.go lines 123-144).  A nil engine panics inside makeHeader
(method call on a nil interface); a nil parent (possible when the
previous finalization returned a nil block) panics dereferencing the
parent; a failing customization hook is a panic escaping the whole run.
The error returned by `FinalizeSnail` is discarded (`block, _ := ...`)
and the (possibly nil) block returned as is. -/
def genblock (engine? : Option Engine)
    (genf : Option (Nat → BlockGen → Option BlockGen))
    (i : Nat) (parent? : Option SnailBlock) : Option (Option SnailBlock) :=
  match engine? with
  | none => none
  | some engine =>
    match parent? with
    | none => none
    | some parent =>
      let b : BlockGen :=
        { i := i, parent := parent, header := makeHeader parent engine
          engine := engine }
      match (match genf with | none => some b | some g => g i b) with
      | none => none
      | some b1 =>
        some (engine.finalizeSnail b1.header b1.uncles b1.fruits b1.signs).1

/-- The GenerateChain loop from position `i`, producing `n` more blocks,
threading each produced block as the next parent.  `none` means the run
panicked: the caller receives no blocks at all. -/
def generateChainFrom (engine? : Option Engine)
    (genf : Option (Nat → BlockGen → Option BlockGen))
    (i : Nat) (n : Nat) (parent? : Option SnailBlock) :
    Option (List (Option SnailBlock)) :=
  match n with
  | 0 => some []
  | m + 1 =>
    match genblock engine? genf i parent? with
    | none => none
    | some blk? =>
      (generateChainFrom engine? genf (i + 1) m blk?).map (blk? :: ·)

/-- GenerateChain (chain_makers.go lines 118-151): generate `n` blocks
rooted at `parent`, calling the customization hook (Go `gen`, nil
allowed) on each draft, finalizing through the engine, and recording
each produced block at its position while it becomes the parent of the
next iteration. -/
def GenerateChain (parent : SnailBlock) (engine? : Option Engine) (n : Nat)
    (genf : Option (Nat → BlockGen → Option BlockGen)) :
    Option (List (Option SnailBlock)) :=
  generateChainFrom engine? genf 0 n (some parent)

/-- Snail chain reader, after SnailBlockChain as consumed here:
`CurrentBlock()` and `GetBlockByNumber(height)`.  `blocks` lists the
stored blocks by height. -/
structure SnailBlockChain where
  blocks : List SnailBlock
  currentBlock : SnailBlock

/-- GetBlockByNumber: the stored block at the given height, or nothing
when absent. -/
def SnailBlockChain.getBlockByNumber (c : SnailBlockChain) (n : Nat) :
    Option SnailBlock :=
  c.blocks.get? n

/-- Modelled from the spec: params.MinimumFruits, the chain-wide minimum
fruit count of a snail block.  The params package is not among the given
sources; the spec scenario fixes the value at 60 (which also matches the
error string "size less then 60" in the source). -/
def MinimumFruits : Int := 60

/-- Modelled from the spec: the pointer-freshness window constant
(`pointerHashFresh` is read by makeHead but declared outside the given
sources; the spec calls it PointerFreshnessWindow).  Its concrete value
is never load-bearing in the claims, which treat it symbolically; 7 is
used so the definitions stay executable. -/
def pointerHashFresh : Int := 7

/-- Modelled from the spec: the monotonicity guard of
makeSnailBlockFruit reads an identifier `makeFastNum` that is declared
nowhere in the given sources.  Per the spec (section 4.4 step 3 and the
non-monotonic-rejection property) the guard compares the request's
`startFastNumber` against the head's last fruit fast number, so
`makeFastNum` is the requested start fast number. -/
def makeFastNum (makeStartFastNum : Int) : Int :=
  makeStartFastNum

/-- The makeHead closure inside makeSnailBlockFruit (chain_makers.go
lines 220-244): header with number `parent.number + 1`, the wall-clock
timestamp (threaded in as `now`, for Go `time.Now().Unix()` read through
the package-level `tstamp` scratch variable), the fruit flag and fast
number, and the pointer fields taken from the block at height
`parent.number - pointerHashFresh` clamped at 0.  A failed
GetBlockByNumber lookup leaves a nil pointer whose `Hash()` call
panics: `none`. -/
def makeHead (chain : SnailBlockChain) (pubkey : List Nat)
    (coinbaseAddr : Nat) (fastNumber : Int) ( isFruit : Bool) (now : Int) :
    Option SnailHeader :=
  let parent := chain.currentBlock
  let num := parent.header.number
  let header : SnailHeader :=
    { parentHash := SnailBlock.hashOf parent
      publickey := pubkey
      number := num + 1
      time := some now
      coinbase := coinbaseAddr
      fruit := isFruit
      fastNumber := some fastNumber }
  let pointerNum0 := parent.header.number - pointerHashFresh
  let pointerNum := if pointerNum0 < 0 then 0 else pointerNum0
  match chain.getBlockByNumber pointerNum.toNat with
  | none => none
  | some pointer =>
    some { header with
      pointerHash := SnailBlock.hashOf pointer
      pointerNumber := pointer.header.number }

/-- The makeFruit closure (chain_makers.go lines 246-255): a fruit is a
snail block built from a fruit head, no sub-fruits, the captured
signature set and no uncles.  Its Go error result is always nil. -/
def makeFruit (chain : SnailBlockChain) (fastNumber : Int)
    (pubkey : List Nat) (coinbaseAddr : Nat) (signs : List Nat)
    (now : Int) : Option (Except String SnailBlock) :=
  match makeHead chain pubkey coinbaseAddr fastNumber true now with
  | none => none
  | some head => some (Except.ok (SnailBlock.mk head [] signs []))

/-- The fruit-creation loop of makeSnailBlockFruit (chain_makers.go
lines 259-265): build one fruit per listed fast number, returning the
first fruit-construction error immediately and aborting on a panic. -/
def makeFruitsLoop (chain : SnailBlockChain) (pubkey : List Nat)
    (coinbaseAddr : Nat) (signs : List Nat) (now : Int) :
    List Int → Option (Except String (List SnailBlock))
  | [] => some (Except.ok [])
  | fn :: rest =>
    match makeFruit chain fn pubkey coinbaseAddr signs now with
    | none => none
    | some (Except.error e) => some (Except.error e)
    | some (Except.ok fr) =>
      match makeFruitsLoop chain pubkey coinbaseAddr signs now rest with
      | none => none
      | some (Except.error e) => some (Except.error e)
      | some (Except.ok frs) => some (Except.ok (fr :: frs))

/-- makeSnailBlockFruit (chain_makers.go lines 195-288).  Guards, in
source order: a nil chain returns an explicit error; reading the head's
last fruit panics (`none`) when the head has no fruits; for a block
request, a fruit count below the minimum or a start fast number not
beyond the head's last fruit fast number returns an explicit error (the
short-circuit of the Go disjunction means the fast number is not read
when the count is already too small; reading a nil last fast number
panics); the unconditional monotonicity guard then rejects a start fast
number not beyond the last fast number.  A block request builds one
fruit per fast number in `[start, start + count)`, re-checks the count,
and assembles the block whose own fast number is the start; a fruit
request builds the single fruit. -/
def makeSnailBlockFruit (chain? : Option SnailBlockChain)
    (makeStartFastNum makeFruitSize : Int) (pubkey : List Nat)
    (coinbaseAddr : Nat) (signs : List Nat) ( isBlock : Bool) (now : Int) :
    Option (Except String SnailBlock) :=
  match chain? with
  | none => some (Except.error "chain is nil")
  | some chain =>
    match chain.currentBlock.fruits.getLast? with
    | none => none
    | some lastFruit =>
      if isBlock = true ∧ makeFruitSize < MinimumFruits then
        some (Except.error "fruitSet is nill or size less then 60")
      else
        match lastFruit.header.fastNumber with
        | none => none
        | some lastFast =>
          if isBlock = true ∧ lastFast ≥ makeStartFastNum then
            some (Except.error "fruitSet is nill or size less then 60")
          else if makeFastNum makeStartFastNum ≤ lastFast then
            some (Except.error "fast number less then current block's fruitset fast number")
          else if isBlock then
            match makeFruitsLoop chain pubkey coinbaseAddr signs now
                ((List.range makeFruitSize.toNat).map
                  (fun k => makeStartFastNum + (k : Int))) with
            | none => none
            | some (Except.error e) => some (Except.error e)
            | some (Except.ok fruitsetCopy) =>
              if (fruitsetCopy.length : Int) ≠ makeFruitSize then
                some (Except.error "fruits make fail the length less then makeFruitSize")
              else
                match makeHead chain pubkey coinbaseAddr makeStartFastNum
                    false now with
                | none => none
                | some head =>
                  some (Except.ok (SnailBlock.mk head fruitsetCopy signs []))
          else
            match makeFruit chain makeStartFastNum pubkey coinbaseAddr
                signs now with
            | none => none
            | some (Except.error e) => some (Except.error e)
            | some (Except.ok fruit) => some (Except.ok fruit)

/-- One generation step relates a predecessor block to the produced
block: height incremented by one, time advanced by exactly the fixed
10-unit interval (hence strictly increasing), and difficulty computed by
the engine over the single-ancestor window containing only the
predecessor, at the new time. -/
def stepOK (e : Engine) (pre blk : SnailBlock) : Prop :=
  blk.header.number = pre.header.number + 1 ∧
  ∃ t, pre.header.time = some t ∧ blk.header.time = some (t + 10) ∧
    t < t + 10 ∧
    blk.header.difficulty =
      e.calcSnailDifficulty [ancWindow pre (t + 10)] (bigUint64 (t + 10))

/-- Test fixture: a fruit recorded in the chain head, attesting fast
number 0. -/
def gFruit : SnailBlock := SnailBlock.mk { fastNumber := some 0 } [] [] []

/-- Test fixture: a genesis block at height 0. -/
def g0 : SnailBlock := SnailBlock.mk { number := 0, time := some 0 } [] [] []

/-- Test fixture: a chain head at height 1 holding one fruit. -/
def cHeadBlock : SnailBlock :=
  SnailBlock.mk { number := 1, time := some 50 } [gFruit] [] []

/-- Test fixture: a well-formed one-block store whose head is
`cHeadBlock`. -/
def cChain : SnailBlockChain := { blocks := [g0], currentBlock := cHeadBlock }

/-- Test fixture: an engine with a concrete difficulty function whose
finalization seals the drafted header unchanged and reports no error. -/
def cEngine : Engine :=
  { calcSnailDifficulty := fun _ t => 1000 + (t : Int)
    finalizeSnail := fun h u fr s => (some (SnailBlock.mk h fr s u), none) }

/-- Test fixture: an engine whose finalization seals the drafted header
but reports an error on every call. -/
def cErrEngine : Engine :=
  { calcSnailDifficulty := fun _ _ => 0
    finalizeSnail := fun h u fr s =>
      (some (SnailBlock.mk h fr s u), some "seal failed") }

/-- Test fixture: a parent block at height 0 with time 100. -/
def p100 : SnailBlock := SnailBlock.mk { number := 0, time := some 100 } [] [] []

/-- Test fixture: a parent block whose time is nil. -/
def pNil : SnailBlock := SnailBlock.mk { number := 3 } [] [] []

/-- Test fixture: the first block the erroring engine produces from
`p100`. -/
def cB0 : SnailBlock := SnailBlock.mk (makeHeader p100 cErrEngine) [] [] []

/-- Test fixture: the second block the erroring engine produces. -/
def cB1 : SnailBlock := SnailBlock.mk (makeHeader cB0 cErrEngine) [] [] []

/-- Test fixture: the block assembled from `cChain` with start fast
number 1 and fruit count 60. -/
def cBlock2 : SnailBlock :=
  match makeSnailBlockFruit (some cChain) 1 60 [] 0 [] true 5 with
  | some (Except.ok b) => b
  | _ => default

/-- Test fixture: a fruit head built on `cChain` (fast number 9). -/
def cHead5 : SnailHeader :=
  match makeHead cChain [] 0 9 true 11 with
  | some h => h
  | none => default

/-- Test fixture: a fruit head built on `cChain` (fast number 5). -/
def cHead9 : SnailHeader :=
  match makeHead cChain [] 0 5 true 7 with
  | some h => h
  | none => default

/-- Test fixture: a fruit head built on `cChain` (fast number 4). -/
def cHead9A : SnailHeader :=
  match makeHead cChain [] 0 4 true 8 with
  | some h => h
  | none => default

/-- Test fixture: a generation context whose draft time is 60 over the
parent `cHeadBlock` (time 50). -/
def cBG : BlockGen :=
  { i := 0, parent := cHeadBlock, header := { time := some 60 }
    engine := cEngine }

/-- Helper: every header the makeHead closure returns has the parent
height plus one, the requested fruit flag and fast number, and the
wall-clock time. -/
theorem makeHead_fields (chain : SnailBlockChain) (pk : List Nat) (cb : Nat)
    (fn : Int) ( isFruit : Bool) (now : Int) (h : SnailHeader)
    (hmk : makeHead chain pk cb fn isFruit now = some h) :
    h.number = chain.currentBlock.header.number + 1 ∧ h.fruit = isFruit ∧
    h.fastNumber = some fn ∧ h.time = some now := by
  simp only [makeHead] at hmk
  split at hmk
  · exact absurd hmk (by simp)
  · injection hmk with hh
    subst hh
    exact ⟨rfl, rfl, rfl, rfl⟩

/-- C10: for a parent whose time is nil, makeHeader does not fail: it
returns a draft header with time exactly 10, the parent hash, the
inherited coinbase, number one past the parent, and difficulty computed
by the engine exactly as for any other parent (over the single-ancestor
window, whose backdated time is 0 here). -/
theorem makeHeader_nil_time (parent : SnailBlock) (e : Engine)
    (ht : parent.header.time = none) :
    (makeHeader parent e).time = some 10 ∧
    (makeHeader parent e).parentHash = SnailBlock.hashOf parent ∧
    (makeHeader parent e).coinbase = parent.header.coinbase ∧
    (makeHeader parent e).number = parent.header.number + 1 ∧
    (makeHeader parent e).difficulty =
      e.calcSnailDifficulty [ancWindow parent 10] (bigUint64 10) := by
  refine ⟨?_, ?_, ?_, ?_, ?_⟩ <;> simp [makeHeader, ht]

/-- C10 witness: the nil-time parent fixture yields a header with time
10 and the stated fields. -/
theorem makeHeader_nil_time_witness :
    (makeHeader pNil cEngine).time = some 10 ∧
    (makeHeader pNil cEngine).parentHash = SnailBlock.hashOf pNil ∧
    (makeHeader pNil cEngine).coinbase = pNil.header.coinbase ∧
    (makeHeader pNil cEngine).number = pNil.header.number + 1 ∧
    (makeHeader pNil cEngine).difficulty =
      cEngine.calcSnailDifficulty [ancWindow pNil 10] (bigUint64 10) :=
  makeHeader_nil_time pNil cEngine rfl

/-- C9 counterexample: on the concrete fixture chain (head height 1) the
makeHead closure, asked for a fruit header, still increments the number:
the fruit header gets number 2, strictly past the parent height. -/
theorem fruit_header_increments_number :
    makeHead cChain [] 0 5 true 7 = some cHead9 ∧ cHead9.fruit = true ∧
    cHead9.number = 2 ∧ cChain.currentBlock.header.number = 1 ∧
    cChain.currentBlock.header.number < cHead9.number :=
  ⟨rfl, rfl, rfl, rfl, by decide⟩

/-- C9 amended: every header built by the makeHead closure, fruit or
block alike, carries number equal to the parent height plus one (the
closure never skips the increment for fruit headers). -/
theorem makeHead_number_plus_one (chain : SnailBlockChain) (pk : List Nat)
    (cb : Nat) (fn : Int) ( isFruit : Bool) (now : Int) (h : SnailHeader)
    (hmk : makeHead chain pk cb fn isFruit now = some h) :
    h.number = chain.currentBlock.header.number + 1 ∧ h.fruit = isFruit :=
  ⟨(makeHead_fields chain pk cb fn isFruit now h hmk).1,
   (makeHead_fields chain pk cb fn isFruit now h hmk).2.1⟩

/-- C9 witness: a concrete fruit head on the fixture chain has number
parent height plus one. -/
theorem makeHead_number_plus_one_witness :
    cHead9A.number = cChain.currentBlock.header.number + 1 ∧
    cHead9A.fruit = true :=
  makeHead_number_plus_one cChain [] 0 4 true 8 cHead9A rfl

/-- C5: for every header the makeHead closure produces over a
well-formed store (the block found at a height carries that height) with
a non-negative head height, the pointer number is exactly
max(0, parent height minus the pointer-freshness window), hence between
0 and the parent height. -/
theorem pointerNumber_freshness (chain : SnailBlockChain) (pk : List Nat)
    (cb : Nat) (fn now : Int) ( isFruit : Bool) (h : SnailHeader)
    (hwf : ∀ nn bb, chain.getBlockByNumber nn = some bb →
      bb.header.number = (nn : Int))
    (h0 : 0 ≤ chain.currentBlock.header.number)
    (hmk : makeHead chain pk cb fn isFruit now = some h) :
    h.pointerNumber =
      max 0 (chain.currentBlock.header.number - pointerHashFresh) ∧
    0 ≤ h.pointerNumber ∧
    h.pointerNumber ≤ chain.currentBlock.header.number := by
  simp only [makeHead] at hmk
  split at hmk
  · exact absurd hmk (by simp)
  · rename_i pointer hlook
    injection hmk with hh
    subst hh
    have hnum := hwf _ _ hlook
    have hfresh : pointerHashFresh = 7 := rfl
    refine ⟨?_, ?_, ?_⟩
    · show pointer.header.number = _
      rw [hnum]
      split <;> omega
    · show 0 ≤ pointer.header.number
      rw [hnum]
      split <;> omega
    · show pointer.header.number ≤ _
      rw [hnum]
      split <;> omega

/-- C5 witness: a concrete fruit head on the fixture chain has pointer
number max(0, 1 - pointerHashFresh) = 0, within the stated bounds. -/
theorem pointerNumber_freshness_witness :
    cHead5.pointerNumber =
      max 0 (cChain.currentBlock.header.number - pointerHashFresh) ∧
    0 ≤ cHead5.pointerNumber ∧
    cHead5.pointerNumber ≤ cChain.currentBlock.header.number :=
  pointerNumber_freshness cChain [] 0 9 11 true cHead5
    (by
      intro nn bb hnb
      match nn, hnb with
      | 0, hnb =>
        injection hnb with hb
        rw [← hb]
        rfl
      | n + 1, hnb =>
        simp [SnailBlockChain.getBlockByNumber, cChain] at hnb)
    (by decide) rfl

/-- C4: on a chain whose head has fruits, any fruit or block request
whose start fast number does not strictly exceed the head's last fruit
fast number is rejected with an explicit error — never clamped to a
valid value. -/
theorem nonMonotonic_rejected (chain : SnailBlockChain) (start size : Int)
    (pk : List Nat) (cb : Nat) (sg : List Nat) ( isBlock : Bool) (now : Int)
    (lastFruit : SnailBlock) (lf : Int)
    (hlast : chain.currentBlock.fruits.getLast? = some lastFruit)
    (hfn : lastFruit.header.fastNumber = some lf)
    (hle : start ≤ lf) :
    ∃ msg, makeSnailBlockFruit (some chain) start size pk cb sg isBlock now =
      some (Except.error msg) := by
  simp only [makeSnailBlockFruit, hlast, hfn, makeFastNum]
  split_ifs with h1 h2 <;> exact ⟨_, rfl⟩

/-- C4 witness: a fruit request on the fixture chain with start fast
number 0, equal to the head's last fruit fast number, is rejected. -/
theorem nonMonotonic_rejected_witness :
    ∃ msg, makeSnailBlockFruit (some cChain) 0 60 [] 0 [] false 5 =
      some (Except.error msg) :=
  nonMonotonic_rejected cChain 0 60 [] 0 [] false 5 gFruit 0 rfl rfl
    (by decide)

/-- C3: a block-assembly request with fruit count below MinimumFruits
never produces a block, whatever the chain; whenever the chain is
present with a fruit-bearing head (so the guard is reached instead of
the empty-fruit indexing panic), the call returns the explicit
insufficient-fruits error. -/
theorem minimumFruits_enforced (chain? : Option SnailBlockChain)
    (start size : Int) (pk : List Nat) (cb : Nat) (sg : List Nat)
    (now : Int) (hsize : size < MinimumFruits) :
    (∀ b, makeSnailBlockFruit chain? start size pk cb sg true now ≠
      some (Except.ok b)) ∧
    (∀ chain, chain? = some chain → chain.currentBlock.fruits ≠ [] →
      makeSnailBlockFruit chain? start size pk cb sg true now =
        some (Except.error "fruitSet is nill or size less then 60")) := by
  constructor
  · intro b hb
    match chain? with
    | none => simp [makeSnailBlockFruit] at hb
    | some chain =>
      simp only [makeSnailBlockFruit] at hb
      split at hb
      · exact absurd hb (by simp)
      · rw [if_pos ⟨trivial, hsize⟩] at hb
        exact absurd hb (by simp)
  · intro chain hc hne
    subst hc
    obtain ⟨lastFruit, hlast⟩ :=
      Option.isSome_iff_exists.mp (List.getLast?_isSome.mpr hne)
    simp only [makeSnailBlockFruit, hlast]
    rw [if_pos ⟨trivial, hsize⟩]

/-- C3 witness: requesting a block with 59 fruits on the fixture chain
fails with the explicit error and yields no block. -/
theorem minimumFruits_enforced_witness :
    (∀ b, makeSnailBlockFruit (some cChain) 1 59 [] 0 [] true 5 ≠
      some (Except.ok b)) ∧
    (∀ chain, some cChain = some chain → chain.currentBlock.fruits ≠ [] →
      makeSnailBlockFruit (some cChain) 1 59 [] 0 [] true 5 =
        some (Except.error "fruitSet is nill or size less then 60")) :=
  minimumFruits_enforced (some cChain) 1 59 [] 0 [] 5 (by decide)

/-- Helper: a successful fruit-creation loop returns one fruit per
listed fast number, carrying exactly those fast numbers in order. -/
theorem makeFruitsLoop_ok (chain : SnailBlockChain) (pk : List Nat)
    (cb : Nat) (sg : List Nat) (now : Int) :
    ∀ (l : List Int) (fs : List SnailBlock),
      makeFruitsLoop chain pk cb sg now l = some (Except.ok fs) →
      fs.map (fun fr => fr.header.fastNumber) = l.map some := by
  intro l
  induction l with
  | nil =>
    intro fs hfs
    simp only [makeFruitsLoop] at hfs
    injection hfs with h1
    injection h1 with h2
    rw [← h2]
    rfl
  | cons x xs ih =>
    intro fs hfs
    simp only [makeFruitsLoop] at hfs
    split at hfs
    · exact absurd hfs (by simp)
    · exact absurd hfs (by simp)
    · rename_i fr hmf
      split at hfs
      · exact absurd hfs (by simp)
      · exact absurd hfs (by simp)
      · rename_i frs hrest
        injection hfs with h1
        injection h1 with h2
        rw [← h2]
        have hfr : fr.header.fastNumber = some x := by
          simp only [makeFruit] at hmf
          split at hmf
          · exact absurd hmf (by simp)
          · rename_i head hmh
            injection hmf with h3
            injection h3 with h4
            rw [← h4]
            exact (makeHead_fields chain pk cb x true now head hmh).2.2.1
        simp only [List.map_cons]
        rw [hfr, ih frs hrest]

/-- C2: every block the assembler returns carries exactly `size` fruits
whose fast numbers are `start, start + 1, ..., start + size - 1`, in
order with no gaps or repeats (and the minimum-fruit guard was passed). -/
theorem fruit_contiguity (chain : SnailBlockChain) (start size : Int)
    (pk : List Nat) (cb : Nat) (sg : List Nat) (now : Int) (b : SnailBlock)
    (hb : makeSnailBlockFruit (some chain) start size pk cb sg true now =
      some (Except.ok b)) :
    (b.fruits.length : Int) = size ∧ MinimumFruits ≤ size ∧
    b.fruits.map (fun fr => fr.header.fastNumber) =
      (List.range size.toNat).map (fun k => some (start + (k : Int))) := by
  simp only [makeSnailBlockFruit] at hb
  split at hb
  · exact absurd hb (by simp)
  rename_i lastFruit hlast
  split at hb
  · exact absurd hb (by simp)
  rename_i hg1
  split at hb
  · exact absurd hb (by simp)
  rename_i lastFast hfn
  split at hb
  · exact absurd hb (by simp)
  rename_i hg2
  split at hb
  · exact absurd hb (by simp)
  rename_i hg3
  rw [if_pos trivial] at hb
  split at hb
  · exact absurd hb (by simp)
  · exact absurd hb (by simp)
  rename_i fs hloop
  split at hb
  · exact absurd hb (by simp)
  rename_i hlen
  split at hb
  · exact absurd hb (by simp)
  rename_i head hmh
  injection hb with h1
  injection h1 with h2
  rw [← h2]
  have hlen2 : (fs.length : Int) = size := by
    by_contra hcon
    exact hlen hcon
  have hmin : MinimumFruits ≤ size := by
    rcases not_and_or.mp hg1 with hx | hx
    · exact absurd trivial hx
    · omega
  refine ⟨by simpa [SnailBlock.fruits] using hlen2, hmin, ?_⟩
  show fs.map (fun fr => fr.header.fastNumber) = _
  rw [makeFruitsLoop_ok chain pk cb sg now _ fs hloop, List.map_map]
  rfl

/-- C2 witness: the concrete 60-fruit block assembled on the fixture
chain from start fast number 1 has fruits numbered 1 through 60. -/
theorem fruit_contiguity_witness :
    ((cBlock2.fruits.length : Int) = 60 ∧ MinimumFruits ≤ 60 ∧
      cBlock2.fruits.map (fun fr => fr.header.fastNumber) =
        (List.range (60 : Int).toNat).map (fun k => some (1 + (k : Int)))) :=
  fruit_contiguity cChain 1 60 [] 0 [] 5 cBlock2 rfl

/-- C6: offsetting a draft time so that it no longer strictly exceeds
the parent time is a non-recoverable failure (the pending and all later
blocks of the run are lost), while an offset keeping the time strictly
beyond the parent succeeds and recomputes the difficulty with the engine
over the single-ancestor window containing only the parent header, at
the new timestamp; in particular a whole generation run whose hook
applies such a violating offset yields no blocks at all. -/
theorem offsetTime_ordering (b : BlockGen) (seconds t pt : Int)
    (ht : b.header.time = some t) (hpt : b.parent.header.time = some pt) :
    (t + seconds ≤ pt → b.OffsetTime seconds = none) ∧
    (pt < t + seconds →
      ∃ b1, b.OffsetTime seconds = some b1 ∧
        b1.header.time = some (t + seconds) ∧
        b1.header.difficulty =
          b.engine.calcSnailDifficulty [b.parent.header]
            (bigUint64 (t + seconds))) ∧
    (∀ (e : Engine) (p : SnailBlock) (pt0 : Int) (n : Nat),
      p.header.time = some pt0 → seconds + 10 ≤ 0 → 0 < n →
      GenerateChain p (some e) n
        (some (fun _ bg => bg.OffsetTime seconds)) = none) := by
  refine ⟨?_, ?_, ?_⟩
  · intro hle
    simp only [BlockGen.OffsetTime, ht, hpt]
    rw [if_pos hle]
  · intro hlt
    simp only [BlockGen.OffsetTime, ht, hpt]
    rw [if_neg (by omega)]
    exact ⟨_, rfl, rfl, rfl⟩
  · intro e p pt0 n hp hs hn
    match n, hn with
    | m + 1, _ =>
      have hmt : (makeHeader p e).time = some (pt0 + 10) := by
        simp [makeHeader, hp]
      have hot : BlockGen.OffsetTime
          { i := 0, parent := p, header := makeHeader p e, engine := e }
          seconds = none := by
        simp only [BlockGen.OffsetTime, hmt, hp]
        rw [if_pos (by omega)]
      have hgb : genblock (some e)
          (some (fun _ bg => bg.OffsetTime seconds)) 0 (some p) = none := by
        simp [genblock, hot]
      unfold GenerateChain generateChainFrom
      rw [hgb]

/-- C6 witness: on the concrete generation context (draft time 60 over
a parent at time 50), an offset of -10 hits 50 and aborts; the stated
behavior holds at that instance. -/
theorem offsetTime_ordering_witness :
    ((60 + -10 ≤ 50 → cBG.OffsetTime (-10) = none) ∧
     (50 < 60 + -10 →
       ∃ b1, cBG.OffsetTime (-10) = some b1 ∧
         b1.header.time = some (60 + -10) ∧
         b1.header.difficulty =
           cBG.engine.calcSnailDifficulty [cBG.parent.header]
             (bigUint64 (60 + -10))) ∧
     (∀ (e : Engine) (p : SnailBlock) (pt0 : Int) (n : Nat),
       p.header.time = some pt0 → (-10 : Int) + 10 ≤ 0 → 0 < n →
       GenerateChain p (some e) n
         (some (fun _ bg => bg.OffsetTime (-10))) = none)) :=
  offsetTime_ordering cBG (-10) 60 50 rfl rfl

/-- C7: GenerateChain depends on the engine only through the
input-output behavior of its difficulty and finalization functions: two
engines agreeing pointwise produce identical block sequences (with the
embedding itself pure, two runs with equal arguments are definitionally
identical). -/
theorem generateChain_deterministic (parent : SnailBlock) (n : Nat)
    (e1 e2 : Engine)
    (hc : ∀ w t, e1.calcSnailDifficulty w t = e2.calcSnailDifficulty w t)
    (hf : ∀ h u fr s, e1.finalizeSnail h u fr s = e2.finalizeSnail h u fr s) :
    GenerateChain parent (some e1) n none =
      GenerateChain parent (some e2) n none := by
  have hmk : ∀ p : SnailBlock, makeHeader p e1 = makeHeader p e2 := by
    intro p
    simp only [makeHeader, hc]
  have main : ∀ (m i : Nat) (parent? : Option SnailBlock),
      generateChainFrom (some e1) none i m parent? =
        generateChainFrom (some e2) none i m parent? := by
    intro m
    induction m with
    | zero => intro i parent?; rfl
    | succ k ih =>
      intro i parent?
      have hgb : genblock (some e1) none i parent? =
          genblock (some e2) none i parent? := by
        cases parent? with
        | none => rfl
        | some p => simp only [genblock, hmk p, hf]
      unfold generateChainFrom
      rw [hgb]
      cases hg2 : genblock (some e2) none i parent? with
      | none => rfl
      | some blk? =>
        simp only [hg2]
        rw [ih]
  exact main n 0 (some parent)

/-- C7 witness: the fixture engine compared with itself at the fixture
parent. -/
theorem generateChain_deterministic_witness :
    GenerateChain p100 (some cEngine) 3 none =
      GenerateChain p100 (some cEngine) 3 none :=
  generateChain_deterministic p100 3 cEngine cEngine (fun _ _ => rfl)
    (fun _ _ _ _ => rfl)

/-- C8 counterexample: with an engine whose finalization reports an
error on every call, GenerateChain still returns the full two-block
batch — the error result of FinalizeSnail is discarded inside the loop
and never reaches the caller, whose return type carries no error
channel at all. -/
theorem finalize_error_swallowed :
    (cErrEngine.finalizeSnail (makeHeader p100 cErrEngine) [] [] []).2 =
      some "seal failed" ∧
    GenerateChain p100 (some cErrEngine) 2 none = some [some cB0, some cB1] :=
  ⟨rfl, rfl⟩

/-- C8 amended: makeSnailBlockFruit returns its failures as explicit
errors (settled by the C3/C4 guards), and a failing customization hook
aborts the whole requested batch with no partial output; but the error
returned by FinalizeSnail is discarded by the generation loop: whenever
the engine keeps returning blocks, the full batch is returned with no
failure surfaced. -/
theorem generateChain_error_policy (parent : SnailBlock) (e : Engine)
    (n : Nat)
    (hbl : ∀ h u fr s, ((e.finalizeSnail h u fr s).1).isSome = true) :
    (∃ obs, GenerateChain parent (some e) n none = some obs ∧
      obs.length = n) ∧
    (0 < n →
      GenerateChain parent (some e) n (some (fun _ _ => none)) = none) := by
  constructor
  · have main : ∀ (m i : Nat) (p : SnailBlock), ∃ obs,
        generateChainFrom (some e) none i m (some p) = some obs ∧
        obs.length = m := by
      intro m
      induction m with
      | zero => intro i p; exact ⟨[], rfl, rfl⟩
      | succ k ih =>
        intro i p
        obtain ⟨blk, hblk⟩ :=
          Option.isSome_iff_exists.mp (hbl (makeHeader p e) [] [] [])
        obtain ⟨obs, hobs, hlen⟩ := ih (i + 1) blk
        refine ⟨some blk :: obs, ?_, by simp [hlen]⟩
        unfold generateChainFrom
        simp only [genblock, hblk, hobs]
        rfl
    exact main n 0 parent
  · intro hn
    match n, hn with
    | m + 1, _ =>
      unfold GenerateChain generateChainFrom
      simp [genblock]

/-- C8 witness: the erroring fixture engine always returns a block, so
the batch of 2 comes back whole, while an always-failing hook aborts. -/
theorem generateChain_error_policy_witness :
    ((∃ obs, GenerateChain p100 (some cErrEngine) 2 none = some obs ∧
       obs.length = 2) ∧
     (0 < 2 →
       GenerateChain p100 (some cErrEngine) 2 (some (fun _ _ => none)) =
         none)) :=
  generateChain_error_policy p100 cErrEngine 2 (fun _ _ _ _ => rfl)

/-- Helper: generation with no customization hook and an engine whose
finalization always seals the drafted header into a block produces, from
any parent with a set time, the full run of blocks each related to its
predecessor by one generation step. -/
theorem generateChainFrom_heights (e : Engine)
    (hpres : ∀ h u fr s, ∃ b, (e.finalizeSnail h u fr s).1 = some b ∧
      b.header = h) :
    ∀ (n i : Nat) (parent : SnailBlock) (pt : Int),
      parent.header.time = some pt →
      ∃ bs : List SnailBlock,
        generateChainFrom (some e) none i n (some parent) =
          some (bs.map some) ∧
        bs.length = n ∧
        ∀ j, j < n →
          stepOK e ((parent :: bs).getD j default) (bs.getD j default) := by
  intro n
  induction n with
  | zero =>
    intro i parent pt hpt
    exact ⟨[], rfl, rfl, fun j hj => absurd hj (Nat.not_lt_zero j)⟩
  | succ m ih =>
    intro i parent pt hpt
    obtain ⟨blk, hfin, hhdr⟩ := hpres (makeHeader parent e) [] [] []
    have hblkTime : blk.header.time = some (pt + 10) := by
      rw [hhdr]
      simp [makeHeader, hpt]
    obtain ⟨bs, hgen, hlen, hstep⟩ := ih (i + 1) blk (pt + 10) hblkTime
    refine ⟨blk :: bs, ?_, by simp [hlen], ?_⟩
    · unfold generateChainFrom
      simp only [genblock, hfin, hgen, Option.map_some]
      rfl
    · intro j hj
      cases j with
      | zero =>
        simp only [List.getD_cons_zero]
        refine ⟨?_, pt, hpt, hblkTime, by omega, ?_⟩
        · rw [hhdr]
          simp [makeHeader]
        · rw [hhdr]
          simp [makeHeader, hpt]
      | succ k =>
        exact hstep k (Nat.lt_of_succ_lt_succ hj)

/-- C1: with an engine that seals the drafted header into each block,
GenerateChain with no customization hook from a parent with a set time
produces exactly n blocks, each with number one past its predecessor and
time exactly 10 past its predecessor (hence strictly increasing), its
difficulty computed over the single-ancestor window containing only the
immediate predecessor. -/
theorem generateChain_heights_times (parent : SnailBlock) (e : Engine)
    (n : Nat) (pt : Int) (hpt : parent.header.time = some pt)
    (hpres : ∀ h u fr s, ∃ b, (e.finalizeSnail h u fr s).1 = some b ∧
      b.header = h) :
    ∃ bs : List SnailBlock,
      GenerateChain parent (some e) n none = some (bs.map some) ∧
      bs.length = n ∧
      ∀ j, j < n →
        stepOK e ((parent :: bs).getD j default) (bs.getD j default) :=
  generateChainFrom_heights e hpres n 0 parent pt hpt

/-- C1 witness: a 5-block run from the fixture parent at time 100 with
the header-preserving fixture engine (times 110 through 150). -/
theorem generateChain_heights_times_witness :
    ∃ bs : List SnailBlock,
      GenerateChain p100 (some cEngine) 5 none = some (bs.map some) ∧
      bs.length = 5 ∧
      ∀ j, j < 5 →
        stepOK cEngine ((p100 :: bs).getD j default) (bs.getD j default) :=
  generateChain_heights_times p100 cEngine 5 100 rfl
    (fun h u fr s => ⟨SnailBlock.mk h fr s u, rfl, rfl⟩)
